import Mathlib

/-!
Shallow embedding of `src/bigclock.c` (flipper-bigclock): the seven-segment
digit renderer, the colon / progress / meridiem primitives and the per-frame
draw callback, together with theorems checking the specification's claims.

Canvas drawing calls are modelled as a list of drawing operations `Op`
emitted in source order; the canvas itself is out of scope (an external
collaborator per the spec).  All C `int` arithmetic is modelled on `Int`;
every division in the program has nonnegative operands, where C truncating
division agrees with Lean's `Int` division.
-/

/-- The two fonts the draw callback selects (`FontKeyboard`, `FontPrimary`). -/
inductive Font where
  | primary
  | keyboard
deriving DecidableEq

/-- One canvas drawing call: `canvas_draw_box` (filled rectangle),
`canvas_draw_frame` (outlined rectangle), `canvas_draw_str` (text at an
origin), `canvas_set_font`. -/
inductive Op where
  | box (x y w h : Int)
  | frame (x y w h : Int)
  | str (x y : Int) (s : String)
  | setFont (f : Font)
deriving DecidableEq

/-- Is the operation a filled rectangle? -/
def isBox : Op → Bool
  | .box _ _ _ _ => true
  | _ => false

/-- Is the operation an outlined (unfilled) rectangle? -/
def isFrame : Op → Bool
  | .frame _ _ _ _ => true
  | _ => false

/-- Is the operation a text draw? -/
def isStr : Op → Bool
  | .str _ _ _ => true
  | _ => false

/-- Is the operation a font selection? -/
def isSetFont : Op → Bool
  | .setFont _ => true
  | _ => false

/-- `segmap` from bigclock.c lines 46-57: segment bitmask per digit 0..9.
Bit positions: 0=a (top), 1=b (upper-right), 2=c (lower-right), 3=d (bottom),
4=e (lower-left), 5=f (upper-left), 6=g (middle).  The C array has exactly
ten entries; indices outside 0..9 are never used (guarded in `segdigit`). -/
def segmap : Nat → Nat
  | 0 => 0b0111111
  | 1 => 0b0000110
  | 2 => 0b1011011
  | 3 => 0b1001111
  | 4 => 0b1100110
  | 5 => 0b1101101
  | 6 => 0b1111101
  | 7 => 0b0000111
  | 8 => 0b1111111
  | 9 => 0b1101111
  | _ => 0

/-- The seven segments of a seven-segment display, named as in the source
comment: a=top, b=upper-right, c=lower-right, d=bottom, e=lower-left,
f=upper-left, g=middle. -/
inductive Seg where
  | a
  | b
  | c
  | d
  | e
  | f
  | g
deriving DecidableEq

/-- Bit position of each segment per the source comment (lines 37-44). -/
def segBit : Seg → Nat
  | .a => 0
  | .b => 1
  | .c => 2
  | .d => 3
  | .e => 4
  | .f => 5
  | .g => 6

/-- Modelled from the spec: the segments lit in the traditional (canonical)
seven-segment alphabet for each digit 0-9, written down independently of the
source table so that `segmap` can be checked against it. -/
def canonicalLit : Nat → List Seg
  | 0 => [.a, .b, .c, .d, .e, .f]
  | 1 => [.b, .c]
  | 2 => [.a, .b, .g, .e, .d]
  | 3 => [.a, .b, .g, .c, .d]
  | 4 => [.f, .g, .b, .c]
  | 5 => [.a, .f, .g, .c, .d]
  | 6 => [.a, .f, .g, .e, .d, .c]
  | 7 => [.a, .b, .c]
  | 8 => [.a, .b, .c, .d, .e, .f, .g]
  | 9 => [.a, .b, .c, .d, .f, .g]
  | _ => []

/-- Modelled from the spec: the canonical seven-segment bitmask of a digit,
assembled from the lit-segment list using the source's bit numbering. -/
def canonicalMask (n : Nat) : Nat :=
  (canonicalLit n).foldl (fun acc s => acc ||| (1 <<< segBit s)) 0

/-- bigclock.c lines 102-103: 12-hour form of a 24-hour value
(`int H12 = H24 % 12; if(H12 == 0) H12 = 12;`). -/
def hour12 (H24 : Int) : Int :=
  let H12 := H24 % 12
  if H12 = 0 then 12 else H12

/-- bigclock.c lines 106-107: hour-tens digit, `-1` (blank sentinel) when
`H12 / 10 == 0`, otherwise `H12 / 10`. -/
def hourTens (H12 : Int) : Int :=
  let ht_raw := H12 / 10
  if ht_raw = 0 then -1 else ht_raw

/-- `segdigit` from bigclock.c lines 59-77: draw one seven-segment digit in
the box at `(x, y)` of size `w × h` with stroke `t`; `d` is `-1` for blank.
Each lit segment is one filled rectangle, emitted in source order
(a, g, d, f, b, e, c). -/
def segdigit (x y w h t d : Int) : List Op :=
  if d < 0 ∨ 9 < d then [] else
    let m := segmap d.toNat
    let ym := y + h / 2
    let half := h / 2
    (if m &&& (1 <<< 0) ≠ 0 then [Op.box x y w t] else []) ++
    (if m &&& (1 <<< 6) ≠ 0 then [Op.box x (ym - t / 2) w t] else []) ++
    (if m &&& (1 <<< 3) ≠ 0 then [Op.box x (y + h - t) w t] else []) ++
    (if m &&& (1 <<< 5) ≠ 0 then [Op.box x y t half] else []) ++
    (if m &&& (1 <<< 1) ≠ 0 then [Op.box (x + w - t) y t half] else []) ++
    (if m &&& (1 <<< 4) ≠ 0 then [Op.box x (y + h - half) t half] else []) ++
    (if m &&& (1 <<< 2) ≠ 0 then [Op.box (x + w - t) (y + h - half) t half] else [])

/-- `draw_colon` from bigclock.c lines 79-83: two square dots between the
hour and minute fields. -/
def draw_colon (x y t : Int) : List Op :=
  [Op.box x (y + 16) t t, Op.box x (y + 40) t t]

/-!
Layout constants of `draw_cb` (bigclock.c lines 113-134, 149-173), tuned
for the 128x64 canvas.  `right_edge`, `bx` and `ap_x` are kept parametric in
the canvas width (the source hardcodes 128) so the fit check is meaningful,
as the spec requires of the layout computation.
-/
namespace Layout

def y : Int := 2

def h : Int := 60

def t : Int := 7

def bar_area_w : Int := 12

def right_edge (canvasW : Int) : Int := canvasW - 2 - bar_area_w

def w : Int := 23

def gap : Int := 3

def colon_w : Int := 6

def colon_gap : Int := 2

def x0 : Int := 2

def xH0 : Int := x0

def xH1 : Int := xH0 + w + gap

def cx : Int := xH1 + w + colon_gap

def xM0 : Int := cx + colon_w + colon_gap

def xM1 : Int := xM0 + w + gap

def steps : Int := 5

def bar_w : Int := 6

def bar_h : Int := 8

def bar_gap : Int := 1

def bx (canvasW : Int) : Int := right_edge canvasW + ((bar_area_w - bar_w) / 2)

def by0 : Int := 2

def col_h : Int := steps * bar_h + (steps - 1) * bar_gap

def ap_x (canvasW : Int) : Int := right_edge canvasW + 1

def ap_y0 : Int := by0 + col_h + 2

end Layout

/-- The shipped canvas width (bigclock.c line 120 hardcodes 128). -/
def CANVAS_W : Int := 128

/-- The shipped canvas height. -/
def CANVAS_H : Int := 64

/-- bigclock.c lines 150-151: `int count = second / 10; if(count > steps)
count = steps;`. -/
def clampCount (c : Int) : Int :=
  if c > Layout.steps then Layout.steps else c

/-- bigclock.c lines 136-145: the defensively guarded digit block — the four
digit boxes and the colon when the minute-ones box fits left of the gutter,
otherwise a 3x3 marker box at the canvas origin. -/
def digitsOps (canvasW ht ho mt mo : Int) : List Op :=
  if Layout.xM1 + Layout.w ≤ Layout.right_edge canvasW then
    segdigit Layout.xH0 Layout.y Layout.w Layout.h Layout.t ht ++
    segdigit Layout.xH1 Layout.y Layout.w Layout.h Layout.t ho ++
    draw_colon Layout.cx Layout.y Layout.colon_w ++
    segdigit Layout.xM0 Layout.y Layout.w Layout.h Layout.t mt ++
    segdigit Layout.xM1 Layout.y Layout.w Layout.h Layout.t mo
  else
    [Op.box 0 0 3 3]

/-- bigclock.c lines 161-164: the ten-second progress column, `count`
outlined boxes stacked with gap `bar_gap`. -/
def progressOps (canvasW count : Int) : List Op :=
  (List.range count.toNat).map fun (i : Nat) =>
    Op.frame (Layout.bx canvasW) (Layout.by0 + (i : Int) * (Layout.bar_h + Layout.bar_gap))
      Layout.bar_w Layout.bar_h

/-- bigclock.c lines 166-178: the AM/PM indicator, including the surrounding
font switches (`FontKeyboard` before the label, `FontPrimary` restored). -/
def meridiemOps (canvasW H24 : Int) : List Op :=
  [Op.setFont Font.keyboard] ++
  (if ¬ 12 ≤ H24 then [Op.str (Layout.ap_x canvasW) (Layout.ap_y0 + 7) ("AM")] else []) ++
  (if 12 ≤ H24 then [Op.str (Layout.ap_x canvasW) (Layout.ap_y0 + 15) ("PM")] else []) ++
  [Op.setFont Font.primary]

/-- `draw_cb` from bigclock.c lines 92-179: one frame rendered from the time
sample `(hour, minute, second)`, as the list of canvas operations in source
order.  The canvas width is a parameter (shipped value `CANVAS_W = 128`). -/
def draw_cb (canvasW : Int) (hour minute second : Nat) : List Op :=
  let H24 : Int := (hour : Int)
  let M : Int := (minute : Int)
  let H12 := hour12 H24
  let ht := hourTens H12
  let ho := H12 % 10
  let mt := M / 10
  let mo := M % 10
  let count := clampCount ((second : Int) / 10)
  digitsOps canvasW ht ho mt mo ++
  progressOps canvasW count ++
  meridiemOps canvasW H24

/-- The font selected after executing a list of operations, starting from
`f0`: the last `setFont` wins. -/
def fontAfter (ops : List Op) (f0 : Font) : Font :=
  ops.foldl (fun f op => match op with | Op.setFont g => g | _ => f) f0

/-- A drawing operation lies inside the `W × H` canvas: rectangles have
nonnegative origin and extent and fit entirely inside; text origins are
inside; font selection touches no pixels. -/
def opInBounds (W H : Int) : Op → Prop
  | .box x y w h => 0 ≤ x ∧ 0 ≤ y ∧ 0 ≤ w ∧ 0 ≤ h ∧ x + w ≤ W ∧ y + h ≤ H
  | .frame x y w h => 0 ≤ x ∧ 0 ≤ y ∧ 0 ≤ w ∧ 0 ≤ h ∧ x + w ≤ W ∧ y + h ≤ H
  | .str x y _ => 0 ≤ x ∧ 0 ≤ y ∧ x < W ∧ y < H
  | .setFont _ => True

/-!
Helper lemmas about the shapes of the operation lists each drawing helper
emits.
-/

lemma mem_ite_single {c : Prop} [Decidable c] {op a : Op}
    (hm : op ∈ if c then [a] else []) : op = a := by
  split at hm
  · simpa using hm
  · simp at hm

/-- Every operation `segdigit` emits is one of the seven segment rectangles
of the box at `(x, y)`. -/
lemma segdigit_mem {x y w h t d : Int} {op : Op} (hm : op ∈ segdigit x y w h t d) :
    op = Op.box x y w t ∨
    op = Op.box x (y + h / 2 - t / 2) w t ∨
    op = Op.box x (y + h - t) w t ∨
    op = Op.box x y t (h / 2) ∨
    op = Op.box (x + w - t) y t (h / 2) ∨
    op = Op.box x (y + h - h / 2) t (h / 2) ∨
    op = Op.box (x + w - t) (y + h - h / 2) t (h / 2) := by
  unfold segdigit at hm
  split at hm
  · simp at hm
  · simp only [List.mem_append] at hm
    rcases hm with ((((((h1 | h2) | h3) | h4) | h5) | h6) | h7)
    · exact Or.inl (mem_ite_single h1)
    · exact Or.inr (Or.inl (mem_ite_single h2))
    · exact Or.inr (Or.inr (Or.inl (mem_ite_single h3)))
    · exact Or.inr (Or.inr (Or.inr (Or.inl (mem_ite_single h4))))
    · exact Or.inr (Or.inr (Or.inr (Or.inr (Or.inl (mem_ite_single h5)))))
    · exact Or.inr (Or.inr (Or.inr (Or.inr (Or.inr (Or.inl (mem_ite_single h6))))))
    · exact Or.inr (Or.inr (Or.inr (Or.inr (Or.inr (Or.inr (mem_ite_single h7))))))

/-- `segdigit` only emits filled rectangles. -/
lemma segdigit_mem_box {x y w h t d : Int} {op : Op} (hm : op ∈ segdigit x y w h t d) :
    ∃ a b u v, op = Op.box a b u v := by
  rcases segdigit_mem hm with rfl | rfl | rfl | rfl | rfl | rfl | rfl <;>
    exact ⟨_, _, _, _, rfl⟩

/-- All rectangles of a digit stay inside the digit's bounding box, hence
inside any canvas that contains the bounding box. -/
lemma segdigit_opInBounds {W H x y w h t d : Int} (hx : 0 ≤ x) (hy : 0 ≤ y)
    (ht0 : 0 ≤ t) (htw : t ≤ w) (hth : t ≤ h) (hxw : x + w ≤ W) (hyh : y + h ≤ H) :
    ∀ op ∈ segdigit x y w h t d, opInBounds W H op := by
  intro op hm
  rcases segdigit_mem hm with rfl | rfl | rfl | rfl | rfl | rfl | rfl <;>
    simp only [opInBounds] <;> omega

lemma filter_segdigit (p : Op → Bool) (hp : ∀ a b u v : Int, p (Op.box a b u v) = false)
    (x y w h t d : Int) : (segdigit x y w h t d).filter p = [] := by
  refine List.filter_eq_nil_iff.2 ?_
  intro op hop
  obtain ⟨a, b, u, v, rfl⟩ := segdigit_mem_box hop
  simp [hp]

/-- Every operation of the digit block is a filled rectangle. -/
lemma digitsOps_mem_box {W ht ho mt mo : Int} {op : Op} (hm : op ∈ digitsOps W ht ho mt mo) :
    ∃ a b u v, op = Op.box a b u v := by
  unfold digitsOps at hm
  split at hm
  · simp only [List.mem_append] at hm
    rcases hm with ((((h1 | h2) | h3) | h4) | h5)
    · exact segdigit_mem_box h1
    · exact segdigit_mem_box h2
    · unfold draw_colon at h3
      rcases List.mem_cons.1 h3 with rfl | h3
      · exact ⟨_, _, _, _, rfl⟩
      · rcases List.mem_singleton.1 h3 with rfl
        exact ⟨_, _, _, _, rfl⟩
    · exact segdigit_mem_box h4
    · exact segdigit_mem_box h5
  · rcases List.mem_singleton.1 hm with rfl
    exact ⟨_, _, _, _, rfl⟩

lemma filter_digitsOps (p : Op → Bool) (hp : ∀ a b u v : Int, p (Op.box a b u v) = false)
    (W ht ho mt mo : Int) : (digitsOps W ht ho mt mo).filter p = [] := by
  refine List.filter_eq_nil_iff.2 ?_
  intro op hop
  obtain ⟨a, b, u, v, rfl⟩ := digitsOps_mem_box hop
  simp [hp]

/-- Every operation of the progress column is one of at most `count` outlined
boxes at the fixed column position. -/
lemma progressOps_mem {W c : Int} {op : Op} (hm : op ∈ progressOps W c) :
    ∃ i : Nat, i < c.toNat ∧
      op = Op.frame (Layout.bx W) (Layout.by0 + (i : Int) * (Layout.bar_h + Layout.bar_gap))
        Layout.bar_w Layout.bar_h := by
  unfold progressOps at hm
  obtain ⟨i, hi, rfl⟩ := List.mem_map.1 hm
  exact ⟨i, List.mem_range.1 hi, rfl⟩

lemma filter_progressOps (p : Op → Bool) (hp : ∀ a b u v : Int, p (Op.frame a b u v) = false)
    (W c : Int) : (progressOps W c).filter p = [] := by
  refine List.filter_eq_nil_iff.2 ?_
  intro op hop
  obtain ⟨i, _, rfl⟩ := progressOps_mem hop
  simp [hp]

lemma filter_progressOps_frame (W c : Int) :
    (progressOps W c).filter isFrame = progressOps W c := by
  refine List.filter_eq_self.2 ?_
  intro op hop
  obtain ⟨i, _, rfl⟩ := progressOps_mem hop
  rfl

/-- The clamped progress count is the min of `second / 10` and 5. -/
lemma clampCount_toNat (se : Nat) : (clampCount ((se : Int) / 10)).toNat = min (se / 10) 5 := by
  unfold clampCount Layout.steps
  split <;> omega

/-- The meridiem block renders exactly one label, selected by `12 ≤ H24`,
between the two font switches. -/
lemma meridiemOps_cases (W H24 : Int) :
    meridiemOps W H24 =
      if 12 ≤ H24 then
        [Op.setFont Font.keyboard, Op.str (Layout.ap_x W) (Layout.ap_y0 + 15) ("PM"),
          Op.setFont Font.primary]
      else
        [Op.setFont Font.keyboard, Op.str (Layout.ap_x W) (Layout.ap_y0 + 7) ("AM"),
          Op.setFont Font.primary] := by
  unfold meridiemOps
  by_cases h12 : 12 ≤ H24 <;> simp [h12]

/-- The outlined rectangles of a frame are exactly the progress column. -/
lemma draw_cb_filter_frame (W : Int) (hr mi se : Nat) :
    (draw_cb W hr mi se).filter isFrame = progressOps W (clampCount ((se : Int) / 10)) := by
  unfold draw_cb
  rw [List.filter_append, List.filter_append,
    filter_digitsOps isFrame (fun a b u v => rfl), filter_progressOps_frame,
    meridiemOps_cases]
  split <;> simp [isFrame]

/-- The text draws of a frame are exactly the one meridiem label. -/
lemma draw_cb_filter_str (W : Int) (hr mi se : Nat) :
    (draw_cb W hr mi se).filter isStr =
      if 12 ≤ (hr : Int) then [Op.str (Layout.ap_x W) (Layout.ap_y0 + 15) ("PM")]
      else [Op.str (Layout.ap_x W) (Layout.ap_y0 + 7) ("AM")] := by
  unfold draw_cb
  rw [List.filter_append, List.filter_append,
    filter_digitsOps isStr (fun a b u v => rfl),
    filter_progressOps isStr (fun a b u v => rfl),
    meridiemOps_cases]
  split <;> simp [isStr]

/-!
Theorems settling the specification's claims.
-/

/-- C1: for every digit d in 0..9, `segmap d` is the canonical seven-segment
bit pattern for d; in particular digit 0 has all segments lit except the
middle (bit 6), digit 1 has only upper-right (bit 1) and lower-right
(bit 2) lit, and digit 8 has all seven segments lit. -/
theorem claim_C1_segmap_canonical :
    (∀ d : Nat, d ≤ 9 → segmap d = canonicalMask d) ∧
    (∀ k : Nat, k ≤ 6 →
      (((segmap 0).testBit k ↔ k ≠ 6) ∧
       ((segmap 1).testBit k ↔ (k = 1 ∨ k = 2)) ∧
       (segmap 8).testBit k)) := by
  decide

/-- C2: for every hour24 in [0,23], the 12-hour value computed by the draw
callback is 12 when hour24 is 0 or 12, and hour24 % 12 otherwise. -/
theorem claim_C2_hour12_conversion :
    ∀ hr : Nat, hr ≤ 23 →
      hour12 (hr : Int) = if hr = 0 ∨ hr = 12 then 12 else (hr : Int) % 12 := by
  decide

/-- C2 witness: hour24 = 13 displays as 1. -/
theorem claim_C2_hour12_conversion_witness :
    hour12 ((13 : Nat) : Int) = 1 := by
  simpa using claim_C2_hour12_conversion 13 (by decide)

/-- C3: for every hour24 in [0,23], the hour-tens digit the draw callback
passes to `segdigit` is the blank sentinel -1 exactly when the 12-hour value
is 1..9 (equivalently when `hour12 / 10 = 0`), and is the digit 1 exactly
when the 12-hour value is 10, 11 or 12. -/
theorem claim_C3_hour_tens_blanking :
    ∀ hr : Nat, hr ≤ 23 →
      ((hourTens (hour12 (hr : Int)) = -1 ↔ hour12 (hr : Int) / 10 = 0) ∧
       (hourTens (hour12 (hr : Int)) = -1 ↔
         (1 ≤ hour12 (hr : Int) ∧ hour12 (hr : Int) ≤ 9)) ∧
       (hourTens (hour12 (hr : Int)) = 1 ↔
         (hour12 (hr : Int) = 10 ∨ hour12 (hr : Int) = 11 ∨ hour12 (hr : Int) = 12))) := by
  decide

/-- C3 witness: at hour24 = 9 the tens digit is blank, at hour24 = 10 it
is 1. -/
theorem claim_C3_hour_tens_blanking_witness :
    hourTens (hour12 ((9 : Nat) : Int)) = -1 ∧ hourTens (hour12 ((10 : Nat) : Int)) = 1 := by
  constructor
  · exact (claim_C3_hour_tens_blanking 9 (by decide)).2.1.mpr (by decide)
  · exact (claim_C3_hour_tens_blanking 10 (by decide)).2.2.mpr (by decide)

/-- C4: for every second the progress column draws exactly
`min (second / 10) 5` outlined, unfilled rectangles (frames, not boxes),
stacked vertically with a fixed gap of 1 below 8-pixel cells, and never more
than five even for out-of-range seconds. -/
theorem claim_C4_progress_column :
    ∀ hr mi se : Nat,
      (draw_cb CANVAS_W hr mi se).filter isFrame =
        (List.range (min (se / 10) 5)).map
          (fun (i : Nat) => Op.frame 117 (2 + (i : Int) * 9) 6 8) ∧
      ((draw_cb CANVAS_W hr mi se).filter isFrame).length = min (se / 10) 5 ∧
      ((draw_cb CANVAS_W hr mi se).filter isFrame).length ≤ 5 := by
  intro hr mi se
  have hmain : (draw_cb CANVAS_W hr mi se).filter isFrame =
      (List.range (min (se / 10) 5)).map
        (fun (i : Nat) => Op.frame 117 (2 + (i : Int) * 9) 6 8) := by
    rw [draw_cb_filter_frame]
    unfold progressOps
    rw [clampCount_toNat]
    refine List.map_congr_left ?_
    intro i _
    norm_num [Layout.bx, Layout.right_edge, Layout.bar_area_w, Layout.bar_w,
      Layout.bar_h, Layout.bar_gap, Layout.by0, CANVAS_W]
  refine ⟨hmain, ?_, ?_⟩ <;> rw [hmain] <;> simp

/-- C5: every frame draws exactly one of the text labels AM and PM, AM at
(115, 55) exactly when hour24 < 12 and PM at (115, 63) exactly when
hour24 >= 12; the two labels are at distinct fixed positions and no other
text is ever drawn. -/
theorem claim_C5_meridiem_exclusive :
    ∀ hr mi se : Nat,
      ((Op.str 115 55 ("AM") ∈ draw_cb CANVAS_W hr mi se) ↔ hr < 12) ∧
      ((Op.str 115 63 ("PM") ∈ draw_cb CANVAS_W hr mi se) ↔ 12 ≤ hr) ∧
      ((draw_cb CANVAS_W hr mi se).filter isStr).length = 1 ∧
      (∀ x y : Int, ∀ s : String, Op.str x y s ∈ draw_cb CANVAS_W hr mi se →
        (s = "AM" ∧ x = 115 ∧ y = 55) ∨ (s = "PM" ∧ x = 115 ∧ y = 63)) := by
  intro hr mi se
  have hfs := draw_cb_filter_str CANVAS_W hr mi se
  have hax : Layout.ap_x CANVAS_W = 115 := by decide
  have hay7 : Layout.ap_y0 + 7 = 55 := by decide
  have hay15 : Layout.ap_y0 + 15 = 63 := by decide
  rw [hax, hay7, hay15] at hfs
  have hmem : ∀ x y : Int, ∀ s : String,
      (Op.str x y s ∈ draw_cb CANVAS_W hr mi se) ↔
        Op.str x y s ∈ (draw_cb CANVAS_W hr mi se).filter isStr := by
    intro x y s
    rw [List.mem_filter]
    simp [isStr]
  rcases le_or_lt 12 hr with h12 | h12
  · have h12' : (12 : Int) ≤ (hr : Int) := by exact_mod_cast h12
    rw [if_pos h12'] at hfs
    refine ⟨?_, ?_, ?_, ?_⟩
    · rw [hmem, hfs]
      simp
      omega
    · rw [hmem, hfs]
      simp
      exact h12
    · rw [hfs]
      rfl
    · intro x y s hm
      rw [hmem, hfs] at hm
      simp at hm
      exact Or.inr ⟨hm.2.2, hm.1, hm.2.1⟩
  · have h12' : ¬ (12 : Int) ≤ (hr : Int) := by exact_mod_cast Nat.not_le.2 h12
    rw [if_neg h12'] at hfs
    refine ⟨?_, ?_, ?_, ?_⟩
    · rw [hmem, hfs]
      simp
      exact h12
    · rw [hmem, hfs]
      simp
      omega
    · rw [hfs]
      rfl
    · intro x y s hm
      rw [hmem, hfs] at hm
      simp at hm
      exact Or.inl ⟨hm.2.2, hm.1, hm.2.1⟩

/-- The 3x3 fallback marker is never one of the rectangles of a digit drawn
with the shipped element sizes (its stroke is 7, not 3). -/
lemma fallback_not_mem_segdigit (x d : Int) :
    Op.box 0 0 3 3 ∉ segdigit x Layout.y Layout.w Layout.h Layout.t d := by
  intro hm
  have hw23 : Layout.w = 23 := by decide
  have ht7 : Layout.t = 7 := by decide
  rcases segdigit_mem hm with h | h | h | h | h | h | h <;>
    simp only [Op.box.injEq] at h <;> omega

/-- C6: whenever the fit check fails (the minute-ones box's right edge
exceeds the gutter's left edge) the only filled rectangle drawn is the 3x3
fallback marker at the canvas origin — no digit boxes and no colon; and with
the shipped constants the right edge lies strictly left of the gutter, the
colon is drawn and the fallback marker is not. -/
theorem claim_C6_fit_check :
    ∀ W : Int, ∀ hr mi se : Nat,
      (¬ (Layout.xM1 + Layout.w ≤ Layout.right_edge W) →
        (draw_cb W hr mi se).filter isBox = [Op.box 0 0 3 3]) ∧
      Layout.xM1 + Layout.w < Layout.right_edge CANVAS_W ∧
      Op.box 53 18 6 6 ∈ draw_cb CANVAS_W hr mi se ∧
      Op.box 0 0 3 3 ∉ draw_cb CANVAS_W hr mi se := by
  intro W hr mi se
  have hfit : Layout.xM1 + Layout.w ≤ Layout.right_edge CANVAS_W := by decide
  refine ⟨?_, by decide, ?_, ?_⟩
  · intro hcond
    unfold draw_cb
    rw [List.filter_append, List.filter_append,
      filter_progressOps isBox (fun a b u v => rfl), meridiemOps_cases]
    unfold digitsOps
    rw [if_neg hcond]
    split <;> simp [isBox]
  · simp only [draw_cb]
    unfold digitsOps
    rw [if_pos hfit]
    have hcol : Op.box 53 18 6 6 ∈ draw_colon Layout.cx Layout.y Layout.colon_w := by
      decide
    exact List.mem_append_left _ (List.mem_append_left _
      (List.mem_append_left _ (List.mem_append_left _ (List.mem_append_right _ hcol))))
  · intro hm
    simp only [draw_cb] at hm
    rcases List.mem_append.1 hm with hm1 | hm3
    · rcases List.mem_append.1 hm1 with hd | hp
      · unfold digitsOps at hd
        rw [if_pos hfit] at hd
        rcases List.mem_append.1 hd with hd | hd4
        · rcases List.mem_append.1 hd with hd | hd3
          · rcases List.mem_append.1 hd with hd | hdc
            · rcases List.mem_append.1 hd with hd1 | hd2
              · exact fallback_not_mem_segdigit _ _ hd1
              · exact fallback_not_mem_segdigit _ _ hd2
            · exact (by decide :
                Op.box 0 0 3 3 ∉ draw_colon Layout.cx Layout.y Layout.colon_w) hdc
          · exact fallback_not_mem_segdigit _ _ hd3
        · exact fallback_not_mem_segdigit _ _ hd4
      · obtain ⟨i, _, heq⟩ := progressOps_mem hp
        exact Op.noConfusion heq
    · rw [meridiemOps_cases] at hm3
      split at hm3 <;> simp at hm3

/-- C6 witness: on a synthetic 100-pixel-wide canvas the fit check fails and
the only filled rectangle is the 3x3 marker at the origin. -/
theorem claim_C6_fit_check_witness :
    (draw_cb 100 0 0 0).filter isBox = [Op.box 0 0 3 3] :=
  (claim_C6_fit_check 100 0 0 0).1 (by decide)

/-- C7: every rectangle of a lit digit is either a horizontal segment — full
width `w`, thickness `t`, at the top `y`, at the vertically centred middle
`y + h/2 - t/2`, or at the bottom `y + h - t` — or a vertical segment of
height exactly `h/2` starting at `y` (upper) or `y + h - h/2` (lower), in
the left column `x` or the right column `x + w - t`. -/
theorem claim_C7_segment_geometry :
    ∀ x y w h t d : Int, 0 ≤ d → d ≤ 9 →
      ∀ op ∈ segdigit x y w h t d,
        (op = Op.box x y w t ∨ op = Op.box x (y + h / 2 - t / 2) w t ∨
         op = Op.box x (y + h - t) w t) ∨
        (∃ vx vy : Int, op = Op.box vx vy t (h / 2) ∧ (vx = x ∨ vx = x + w - t) ∧
          (vy = y ∨ vy = y + h - h / 2)) := by
  intro x y w h t d _ _ op hm
  rcases segdigit_mem hm with h1 | h1 | h1 | h1 | h1 | h1 | h1
  · exact Or.inl (Or.inl h1)
  · exact Or.inl (Or.inr (Or.inl h1))
  · exact Or.inl (Or.inr (Or.inr h1))
  · exact Or.inr ⟨x, y, h1, Or.inl rfl, Or.inl rfl⟩
  · exact Or.inr ⟨x + w - t, y, h1, Or.inr rfl, Or.inl rfl⟩
  · exact Or.inr ⟨x, y + h - h / 2, h1, Or.inl rfl, Or.inr rfl⟩
  · exact Or.inr ⟨x + w - t, y + h - h / 2, h1, Or.inr rfl, Or.inr rfl⟩

/-- C7 witness: the top segment of digit 8 drawn in the shipped digit box. -/
theorem claim_C7_segment_geometry_witness :
    (Op.box 2 2 23 7 = Op.box 2 2 23 7 ∨
     Op.box 2 2 23 7 = Op.box 2 (2 + 60 / 2 - 7 / 2) 23 7 ∨
     Op.box 2 2 23 7 = Op.box 2 (2 + 60 - 7) 23 7) ∨
    (∃ vx vy : Int, Op.box 2 2 23 7 = Op.box vx vy 7 (60 / 2) ∧
      (vx = 2 ∨ vx = 2 + 23 - 7) ∧ (vy = 2 ∨ vy = 2 + 60 - 60 / 2)) :=
  claim_C7_segment_geometry 2 2 23 60 7 8 (by decide) (by decide)
    (Op.box 2 2 23 7) (by decide)

/-- C8: for every digit argument outside 0..9 — the blank sentinel -1
included — `segdigit` draws nothing; drawing happens only for digits in
0..9, and then the table index `d.toNat` stays within 0..9. -/
theorem claim_C8_out_of_range_blank :
    ∀ x y w h t d : Int,
      ((d < 0 ∨ 9 < d) → segdigit x y w h t d = []) ∧
      (segdigit x y w h t d ≠ [] → 0 ≤ d ∧ d ≤ 9) ∧
      (¬ (d < 0 ∨ 9 < d) → d.toNat ≤ 9) := by
  intro x y w h t d
  have hempty : (d < 0 ∨ 9 < d) → segdigit x y w h t d = [] := by
    intro hd
    unfold segdigit
    rw [if_pos hd]
  refine ⟨hempty, ?_, ?_⟩
  · intro hne
    constructor
    · by_contra hneg
      exact hne (hempty (Or.inl (by omega)))
    · by_contra hgt
      exact hne (hempty (Or.inr (by omega)))
  · intro hd
    omega

/-- C8 witness: the blank sentinel -1 draws nothing in the shipped digit
box. -/
theorem claim_C8_out_of_range_blank_witness :
    segdigit 2 2 23 60 7 (-1) = [] :=
  (claim_C8_out_of_range_blank 2 2 23 60 7 (-1)).1 (by decide)

/-- C9: for every valid time sample, every rectangle, outline frame and text
origin the draw callback issues has non-negative coordinates and lies
entirely within the 128x64 canvas. -/
theorem claim_C9_ops_in_bounds :
    ∀ hr mi se : Nat, hr ≤ 23 → mi ≤ 59 → se ≤ 59 →
      ∀ op ∈ draw_cb CANVAS_W hr mi se, opInBounds CANVAS_W CANVAS_H op := by
  intro hr mi se _ _ _ op hm
  simp only [draw_cb] at hm
  rcases List.mem_append.1 hm with hm1 | hm3
  · rcases List.mem_append.1 hm1 with hd | hp
    · unfold digitsOps at hd
      rw [if_pos (by decide : Layout.xM1 + Layout.w ≤ Layout.right_edge CANVAS_W)] at hd
      rcases List.mem_append.1 hd with hd | hd4
      · rcases List.mem_append.1 hd with hd | hd3
        · rcases List.mem_append.1 hd with hd | hdc
          · rcases List.mem_append.1 hd with hd1 | hd2
            · exact segdigit_opInBounds (by decide) (by decide) (by decide) (by decide)
                (by decide) (by decide) (by decide) op hd1
            · exact segdigit_opInBounds (by decide) (by decide) (by decide) (by decide)
                (by decide) (by decide) (by decide) op hd2
          · unfold draw_colon at hdc
            rcases List.mem_cons.1 hdc with rfl | hdc
            · simp only [opInBounds]
              decide
            · rcases List.mem_singleton.1 hdc with rfl
              simp only [opInBounds]
              decide
        · exact segdigit_opInBounds (by decide) (by decide) (by decide) (by decide)
            (by decide) (by decide) (by decide) op hd3
      · exact segdigit_opInBounds (by decide) (by decide) (by decide) (by decide)
          (by decide) (by decide) (by decide) op hd4
    · obtain ⟨i, hi, rfl⟩ := progressOps_mem hp
      have hc5 : (clampCount ((se : Int) / 10)).toNat ≤ 5 := by
        unfold clampCount Layout.steps
        split <;> omega
      have hbx : Layout.bx CANVAS_W = 117 := by decide
      have hby0 : Layout.by0 = 2 := by decide
      have hbh : Layout.bar_h = 8 := by decide
      have hbg : Layout.bar_gap = 1 := by decide
      have hbw : Layout.bar_w = 6 := by decide
      have hW : CANVAS_W = 128 := by decide
      have hH : CANVAS_H = 64 := by decide
      simp only [opInBounds]
      rw [hbx, hby0, hbh, hbg, hbw, hW, hH]
      omega
  · rw [meridiemOps_cases] at hm3
    split at hm3 <;> simp only [List.mem_cons, List.not_mem_nil, or_false] at hm3 <;>
      rcases hm3 with rfl | rfl | rfl <;> simp only [opInBounds] <;> decide

/-- C9 witness: the first colon dot of the 09:05:37 frame is in bounds. -/
theorem claim_C9_ops_in_bounds_witness :
    opInBounds CANVAS_W CANVAS_H (Op.box 53 18 6 6) :=
  claim_C9_ops_in_bounds 9 5 37 (by decide) (by decide) (by decide)
    (Op.box 53 18 6 6) (by decide)

/-- Neither the digit block nor the progress column ever changes the font. -/
lemma no_setFont_digits_progress (W a b c e f : Int) :
    ∀ op ∈ digitsOps W a b c e ++ progressOps W f, isSetFont op = false := by
  intro op hm
  rcases List.mem_append.1 hm with hd | hp
  · obtain ⟨_, _, _, _, rfl⟩ := digitsOps_mem_box hd
    rfl
  · obtain ⟨i, _, rfl⟩ := progressOps_mem hp
    rfl

/-- C10: every frame leaves the font at FontPrimary on return, whatever font
was selected before; FontKeyboard is selected exactly once, immediately
before the single AM/PM label, and FontPrimary is the frame's final
operation. -/
theorem claim_C10_font_restored :
    ∀ W : Int, ∀ hr mi se : Nat,
      (∀ f0 : Font, fontAfter (draw_cb W hr mi se) f0 = Font.primary) ∧
      (∃ l : List Op, ∃ x1 y1 : Int, ∃ s1 : String,
        draw_cb W hr mi se =
          l ++ [Op.setFont Font.keyboard, Op.str x1 y1 s1, Op.setFont Font.primary] ∧
        (∀ op ∈ l, isSetFont op = false) ∧
        (s1 = "AM" ∨ s1 = "PM")) := by
  intro W hr mi se
  by_cases h12 : 12 ≤ (hr : Int)
  · have hd : draw_cb W hr mi se =
        (digitsOps W (hourTens (hour12 (hr : Int))) (hour12 (hr : Int) % 10)
            ((mi : Int) / 10) ((mi : Int) % 10) ++
          progressOps W (clampCount ((se : Int) / 10))) ++
        [Op.setFont Font.keyboard, Op.str (Layout.ap_x W) (Layout.ap_y0 + 15) ("PM"),
          Op.setFont Font.primary] := by
      simp only [draw_cb]
      rw [meridiemOps_cases, if_pos h12, List.append_assoc]
    refine ⟨?_, _, _, _, _, hd, no_setFont_digits_progress _ _ _ _ _ _, Or.inr rfl⟩
    intro f0
    rw [hd]
    unfold fontAfter
    rw [List.foldl_append]
    rfl
  · have hd : draw_cb W hr mi se =
        (digitsOps W (hourTens (hour12 (hr : Int))) (hour12 (hr : Int) % 10)
            ((mi : Int) / 10) ((mi : Int) % 10) ++
          progressOps W (clampCount ((se : Int) / 10))) ++
        [Op.setFont Font.keyboard, Op.str (Layout.ap_x W) (Layout.ap_y0 + 7) ("AM"),
          Op.setFont Font.primary] := by
      simp only [draw_cb]
      rw [meridiemOps_cases, if_neg h12, List.append_assoc]
    refine ⟨?_, _, _, _, _, hd, no_setFont_digits_progress _ _ _ _ _ _, Or.inl rfl⟩
    intro f0
    rw [hd]
    unfold fontAfter
    rw [List.foldl_append]
    rfl
